import Mathlib

/-!
# Verification of the statelet reactive state-container core

Shallow embedding of `src/index.ts` (container, compose, enhance) and
`src/enhancers.ts` (withUrlParams, withHashParams, withStorage, withEffect,
withValidation, withDebounce).

Modelling conventions:
* JavaScript values with their identity (`===` / `!==`) are modelled by an
  arbitrary type `T` with `DecidableEq`: two Lean values are equal exactly when
  the corresponding JavaScript values are identical (for objects, identical
  references are the same element of `T`, structurally equal but distinct
  allocations are distinct elements).
* Listener callbacks are modelled by identifiers (`Nat`); invoking a callback
  is modelled by emitting a notification event `(callbackId, value)`.  The
  list of emitted events records the synchronous invocations in order.
* The JavaScript `Set` of listeners is modelled as a duplicate-free list in
  insertion order (`Set.add` on a present element is a no-op, `forEach`
  iterates in insertion order, `delete` removes the element).
* The `T | ((prev: T) => T)` argument union of `set`, discriminated in the
  source by a typeof check, is modelled by the sum `SetArg` (exact for every
  container whose value type is not itself a function type).
-/

namespace Statelet

/-- The argument of `set`: either a literal replacement value or an updater
function applied to the current value (`index.ts`, `set(value: T | ((prev: T) => T))`). -/
inductive SetArg (T : Type) where
  | value (v : T)
  | updater (f : T → T)

/-- Resolution of the union argument, discriminated in the source by a typeof
check (`index.ts` lines 91–93, reused verbatim by `withValidation`,
lines 381–383). -/
def resolveArg {T : Type} (arg : SetArg T) (current : T) : T :=
  match arg with
  | .value v => v
  | .updater f => f current

/-- The closure state of a container created by `state(initial)`
(`index.ts` lines 81–110): the stored value `current` and the listener set,
kept as a duplicate-free list in insertion (registration) order. -/
structure StateCell (T : Type) where
  current : T
  listeners : List Nat
  deriving DecidableEq, Repr

/-- Constructor `state(initial)` (`index.ts` line 81): fresh container with an
empty listener set. -/
def state {T : Type} (initial : T) : StateCell T :=
  { current := initial, listeners := [] }

/-- Method `get` (`index.ts` lines 86–88): returns the current value, no side
effects. -/
def StateCell.get {T : Type} (c : StateCell T) : T :=
  c.current

/-- Model of `Set.add` on the listener set: appends the callback unless it is
already present (`index.ts` line 102). -/
def addListener (ls : List Nat) (cb : Nat) : List Nat :=
  if cb ∈ ls then ls else ls ++ [cb]

/-- Method `set` (`index.ts` lines 90–99): resolves the candidate next
value against the current value, and if `next !== current` stores it and
invokes every registered listener with the new value in registration order;
otherwise does nothing.  Returns the updated cell and the emitted
notifications. -/
def StateCell.set {T : Type} [DecidableEq T] (c : StateCell T) (arg : SetArg T) :
    StateCell T × List (Nat × T) :=
  let next := resolveArg arg c.current
  if next ≠ c.current then
    ({ c with current := next }, c.listeners.map (fun l => (l, next)))
  else
    (c, [])

/-- Method `subscribe` (`index.ts` lines 101–108): adds the callback to the
listener set and immediately invokes it once with the current value. -/
def StateCell.subscribe {T : Type} (c : StateCell T) (cb : Nat) :
    StateCell T × List (Nat × T) :=
  ({ c with listeners := addListener c.listeners cb }, [(cb, c.current)])

/-- The unsubscribe closure returned by `subscribe` (`index.ts` lines 105–107):
`listeners.delete(callback)`. -/
def StateCell.unsubscribe {T : Type} (c : StateCell T) (cb : Nat) : StateCell T :=
  { c with listeners := c.listeners.filter (fun l => l ≠ cb) }

/-- A structured validation issue of the Standard Schema capability: an
offending field path and a human-readable message (see the mocked schema in
`core.test.ts`, which produces `{ message, path: [{ key }] }` entries). -/
structure Issue where
  message : String
  path : List String
  deriving DecidableEq, Repr

/-- Result of the external `validate` capability, treated as an opaque
collaborator: either a (possibly normalised) value, or a list of issues. -/
inductive StdResult (T : Type) where
  | success (value : T)
  | failure (issues : List Issue)
  deriving DecidableEq

/-- The error thrown by `withValidation` on rejection (`enhancers.ts` lines
388–391): `new Error("Validation failed")` with the issues attached. -/
structure ValidationError where
  message : String
  issues : List Issue
  deriving DecidableEq, Repr

/-- Method `set` of a `withValidation`-enhanced container (`enhancers.ts`
lines 380–395): resolves the candidate next value against the inner
container's current value, runs the schema's `validate`; on failure throws the
validation error (modelled as `Except.error`) without touching the inner
container; on success forwards the validator's returned value to the inner
`set`. -/
def withValidationSet {T : Type} [DecidableEq T] (validate : T → StdResult T)
    (c : StateCell T) (arg : SetArg T) :
    Except ValidationError (StateCell T × List (Nat × T)) :=
  let next := resolveArg arg c.current
  match validate next with
  | .failure issues => .error { message := "Validation failed", issues := issues }
  | .success v => .ok (c.set (.value v))

/-- The inner container as observed after a `withValidation` `set` call: when
the call throws, the exception propagates before `base.set` is ever invoked,
so the inner container is the pre-call one. -/
def afterValidationSet {T : Type} [DecidableEq T] (validate : T → StdResult T)
    (c : StateCell T) (arg : SetArg T) : StateCell T :=
  match withValidationSet validate c arg with
  | .error _ => c
  | .ok r => r.1

/-- The closure state of a `withDebounce(ms)`-enhanced container
(`enhancers.ts` lines 410–424): the inner container plus the pending timer.
`pending = some arg` models one live timer scheduled to run
`base.set(arg)`; `set` first runs `clearTimeout` (discarding any pending
argument) and then `setTimeout` (installing the new one), so at most one
argument is ever pending. -/
structure DebouncedCell (T : Type) where
  inner : StateCell T
  pending : Option (SetArg T)

/-- Method `get` of a `withDebounce`-enhanced container: `get` is spread
through unchanged from the inner container (`enhancers.ts` line 415), so it
reads the inner value even while a write is pending. -/
def DebouncedCell.get {T : Type} (d : DebouncedCell T) : T :=
  d.inner.current

/-- Method `set` of a `withDebounce`-enhanced container (`enhancers.ts` lines
416–421): `clearTimeout(timeout)` then `timeout = setTimeout(() =>
base.set(valueOrUpdater), ms)` — the raw argument (value or updater) is held
unevaluated and nothing reaches the inner container now; no notification is
emitted. -/
def DebouncedCell.set {T : Type} (d : DebouncedCell T) (arg : SetArg T) :
    DebouncedCell T × List (Nat × T) :=
  ({ d with pending := some arg }, [])

/-- Elapse of the pending debounce timer: the scheduled callback runs
`base.set(valueOrUpdater)` against the inner container as it is at that
moment (`enhancers.ts` lines 418–420). -/
def DebouncedCell.fire {T : Type} [DecidableEq T] (d : DebouncedCell T) :
    DebouncedCell T × List (Nat × T) :=
  match d.pending with
  | none => (d, [])
  | some arg =>
      let r := d.inner.set arg
      ({ inner := r.1, pending := none }, r.2)

/-- A synchronous sequence of `set` calls on a `withDebounce`-enhanced
container, all inside one delay window (each call cancels the previous
pending timer before it can elapse); accumulates the notifications emitted
along the way. -/
def DebouncedCell.setMany {T : Type} (d : DebouncedCell T) :
    List (SetArg T) → DebouncedCell T × List (Nat × T)
  | [] => (d, [])
  | arg :: rest =>
      let r := d.set arg
      let r2 := r.1.setMany rest
      (r2.1, r.2 ++ r2.2)

/-- The trace of the `withEffect` enhancer's private closure state
(`enhancers.ts` lines 331–344): the `previous` cache and the recorded effect
invocations, each as an argument pair `(current, previous)` in call order. -/
structure EffectTrace (T : Type) where
  previous : T
  calls : List (T × T)
  deriving DecidableEq, Repr

/-- The internal subscription callback of `withEffect` (`enhancers.ts` lines
338–341): `(current) => { effect(current, previous); previous = current; }` —
invokes the effect with `(current, previous)` and then updates `previous`. -/
def effectCallback {T : Type} (s : EffectTrace T) (current : T) : EffectTrace T :=
  { previous := current, calls := s.calls ++ [(current, s.previous)] }

/-- Composition of `withEffect(effect, options)` over a base container
(`enhancers.ts` lines 331–344): captures `previous = base.get()`; if
`options.immediate` is set, invokes `effect(previous, previous)`; then calls
`base.subscribe(cb)`, which registers the internal callback and — by the
replay in `state.subscribe` (`index.ts` line 103) — immediately invokes it
with the current value.  Returns the container (with the internal callback
registered under `cbId`) and the effect trace. -/
def withEffectCompose {T : Type} (immediate : Bool) (c : StateCell T) (cbId : Nat) :
    StateCell T × EffectTrace T :=
  let previous := c.get
  let s0 : EffectTrace T := { previous := previous, calls := [] }
  let s1 := if immediate then { s0 with calls := s0.calls ++ [(previous, previous)] } else s0
  let r := c.subscribe cbId
  let s2 := effectCallback s1 c.current
  (r.1, s2)

/-- Model of `window.removeEventListener`: drops the given handler from the
window's listener list for one event type. -/
def removeEventListener (ls : List Nat) (h : Nat) : List Nat :=
  ls.filter (fun x => x ≠ h)

/-- The state relevant to the `subscribe` override shared (verbatim, up to the
event name) by `withUrlParams` (`enhancers.ts` lines 202–211, popstate) and
`withHashParams` (lines 261–270, hashchange): the inner container, the
window's listener list for the enhancer's event type, and the id of the
enhancer's shared external-change handler (`handlePopState` /
`handleHashChange`), registered once at composition. -/
structure ExtSyncCell (T : Type) where
  inner : StateCell T
  windowListeners : List Nat
  handler : Nat

/-- The `subscribe` override of `withUrlParams` / `withHashParams`
(`enhancers.ts` lines 204–210 and 263–269): delegates to the inner
container's `subscribe`. -/
def ExtSyncCell.subscribe {T : Type} (e : ExtSyncCell T) (cb : Nat) :
    ExtSyncCell T × List (Nat × T) :=
  let r := e.inner.subscribe cb
  ({ e with inner := r.1 }, r.2)

/-- The unsubscribe closure returned by that override (`enhancers.ts` lines
206–209 and 265–268): runs the inner `unsub()` and then
`window.removeEventListener(event, handler)` on the enhancer's shared
handler. -/
def ExtSyncCell.unsubscribe {T : Type} (e : ExtSyncCell T) (cb : Nat) : ExtSyncCell T :=
  { e with
      inner := e.inner.unsubscribe cb,
      windowListeners := removeEventListener e.windowListeners e.handler }

/-- The object spread `\x7b ...base.get(), ...decoded \x7d` used by every
external-sync hydration (`enhancers.ts` lines 174, 235, 296): objects are
modelled as total maps `K → V` and the decoded partial value as `K → Option V`;
decoded fields overwrite, absent fields fall through to the current value. -/
def shallowMerge {K V : Type} (current : K → V) (decoded : K → Option V) : K → V :=
  fun k =>
    match decoded k with
    | some v => v
    | none => current k

/-- Hydration step `base.set(\x7b ...base.get(), ...decoded \x7d)` shared by
`withUrlParams` (`enhancers.ts` lines 170–174), `withHashParams` (lines
231–235) and `withStorage` (lines 292–296): the argument is a freshly
allocated object literal, so the inner `set`'s identity check (`!==` against
the stored reference) always finds it different; the merge is stored and
every registered listener is notified with it. -/
def hydrate {K V : Type} (c : StateCell (K → V)) (decoded : K → Option V) :
    StateCell (K → V) × List (Nat × (K → V)) :=
  let merged := shallowMerge c.current decoded
  ({ c with current := merged }, c.listeners.map (fun l => (l, merged)))

/-- Hydration of `withStorage` (`enhancers.ts` lines 290–300): reads the
stored record for the key; if absent, does nothing; parses and decodes it
(`JSON.parse` may throw — the surrounding try/catch swallows the error and
does nothing); on success applies the shallow-merge hydration.  `parse`
composes `JSON.parse` with the codec's total `decode`. -/
def storageHydrate {K V : Type} (c : StateCell (K → V)) (stored : Option String)
    (parse : String → Option (K → Option V)) :
    StateCell (K → V) × List (Nat × (K → V)) :=
  match stored with
  | none => (c, [])
  | some s =>
      match parse s with
      | none => (c, [])
      | some decoded => hydrate c decoded

/-- The persisted key-value store (`localStorage`): one string record per key. -/
def Store : Type := List (String × String)

/-- Model of `localStorage.setItem`: overwrites the record for the key
wholesale. -/
def setItem (store : Store) (key value : String) : Store :=
  (store.filter (fun p => p.1 ≠ key)) ++ [(key, value)]

/-- Outcome of the external write attempted by `withStorage`'s persist
subscriber, chosen by the environment: the write succeeds, or an exception is
raised inside the try block (storage quota exceeded, serialization error). -/
inductive StoreOutcome where
  | ok
  | failed
  deriving DecidableEq, Repr

/-- The persist subscriber of `withStorage` (`enhancers.ts` lines 303–310):
tries to encode the value and write it to storage; on failure the catch block
swallows the exception and the store is left unchanged. -/
def persistListener (outcome : StoreOutcome) (store : Store) (key encoded : String) :
    Store :=
  match outcome with
  | .ok => setItem store key encoded
  | .failed => store

/-- Method `set` observed through a `withStorage`-enhanced container:
`withStorage` returns the base container itself (`enhancers.ts` line 312), so
`set` is the inner `set`; the persist subscriber registered at composition is
one of the inner container's listeners, so it runs exactly when the write
changes the value, with the new value.  Returns the container, the store, and
the notifications — a normal return in every case: no exception escapes. -/
def withStorageSet {T : Type} [DecidableEq T] (c : StateCell T) (store : Store)
    (key : String) (encode : T → String) (outcome : StoreOutcome) (arg : SetArg T) :
    (StateCell T × Store) × List (Nat × T) :=
  let r := c.set arg
  let store' :=
    if resolveArg arg c.current ≠ c.current then
      persistListener outcome store key (encode r.1.current)
    else store
  ((r.1, store'), r.2)

/-- Function `compose` (`index.ts` lines 127–132):
`enhancers.reduce((current, enhancer) => enhancer(current), base)`. -/
def compose {σ : Type} (base : σ) (enhancers : List (σ → σ)) : σ :=
  enhancers.foldl (fun current enhancer => enhancer current) base

/-- Function `enhance` (`index.ts` lines 145–147): the curried form of
`compose`. -/
def enhance {σ : Type} (enhancers : List (σ → σ)) : σ → σ :=
  fun base => compose base enhancers

end Statelet

namespace Statelet

/-- C1: `compose` applies enhancers strictly left to right — it is the
left-to-right fold `eₙ(...(e₂(e₁(base))))`, characterised by the empty, cons
and snoc equations — and the curried helper `enhance` applied to a base
container agrees with `compose` on every base container. -/
theorem compose_foldl_enhance {σ : Type} (base : σ) (es : List (σ → σ)) (e : σ → σ) :
    compose base [] = base ∧
    compose base (e :: es) = compose (e base) es ∧
    compose base (es ++ [e]) = e (compose base es) ∧
    enhance es base = compose base es := by
  refine ⟨rfl, rfl, ?_, rfl⟩
  simp [compose, List.foldl_append]

/-- C2: `set` computes the candidate next value (literal, or updater applied to
the current value) and compares it to the current value by strict identity.
If identical, the call is a no-op: no storage write and zero listener
notifications.  If different, the value is stored and every currently
registered listener is invoked with the new value, in registration order. -/
theorem set_identity_check {T : Type} [DecidableEq T] (c : StateCell T) (arg : SetArg T) :
    (resolveArg arg c.current = c.current → c.set arg = (c, [])) ∧
    (resolveArg arg c.current ≠ c.current →
      c.set arg = ({ c with current := resolveArg arg c.current },
                   c.listeners.map (fun l => (l, resolveArg arg c.current)))) := by
  constructor
  · intro h
    simp [StateCell.set, h]
  · intro h
    simp [StateCell.set, h]

/-- Witness for C2: on a concrete cell, setting the identical value notifies
nobody and leaves the cell unchanged, while setting a different value stores
it and notifies both listeners in registration order. -/
theorem set_identity_check_witness :
    StateCell.set (T := Nat) ⟨5, [0, 1]⟩ (.value 5) = (⟨5, [0, 1]⟩, []) ∧
    StateCell.set (T := Nat) ⟨5, [0, 1]⟩ (.value 7) = (⟨7, [0, 1]⟩, [(0, 7), (1, 7)]) := by
  constructor
  · exact (set_identity_check ⟨5, [0, 1]⟩ (.value 5)).1 (by decide)
  · have h := (set_identity_check (T := Nat) ⟨5, [0, 1]⟩ (.value 7)).2 (by decide)
    simpa using h

end Statelet

namespace Statelet

/-- Helper: a callback is a member of the listener list it was just added to. -/
theorem mem_addListener_self (ls : List Nat) (cb : Nat) : cb ∈ addListener ls cb := by
  unfold addListener
  by_cases h : cb ∈ ls
  · simp [h]
  · simp [h]

/-- Helper: adding one callback never removes another. -/
theorem mem_addListener_of_mem {ls : List Nat} {l : Nat} (cb : Nat) (h : l ∈ ls) :
    l ∈ addListener ls cb := by
  unfold addListener
  by_cases hc : cb ∈ ls
  · simpa [hc]
  · simp [hc, h]

/-- Helper: every emitted `set` notification targets a registered listener. -/
theorem notified_mem_listeners {T : Type} [DecidableEq T] (c : StateCell T) (arg : SetArg T)
    {p : Nat × T} (h : p ∈ (c.set arg).2) : p.1 ∈ c.listeners := by
  simp only [StateCell.set] at h
  split at h
  · simp only [List.mem_map] at h
    obtain ⟨l, hl, he⟩ := h
    simpa [← he] using hl
  · simp at h

/-- Helper: a removed callback is no longer in the listener list. -/
theorem not_mem_unsubscribe {T : Type} (c : StateCell T) (cb : Nat) :
    cb ∉ (c.unsubscribe cb).listeners := by
  simp [StateCell.unsubscribe, List.mem_filter]

/-- C3: `subscribe(cb)` registers `cb` and invokes it exactly once,
synchronously, with the current value before returning; the returned
unsubscribe removes `cb`; calling unsubscribe twice is the same as calling it
once (idempotent, hence safe); and after the first unsubscribe call no `set`
notification ever reaches `cb`. -/
theorem subscribe_replay_unsubscribe {T : Type} [DecidableEq T] (c : StateCell T) (cb : Nat) :
    (c.subscribe cb).2 = [(cb, c.current)] ∧
    cb ∈ (c.subscribe cb).1.listeners ∧
    (∀ c' : StateCell T, cb ∉ (c'.unsubscribe cb).listeners) ∧
    (∀ c' : StateCell T, (c'.unsubscribe cb).unsubscribe cb = c'.unsubscribe cb) ∧
    (∀ (c' : StateCell T) (arg : SetArg T) (v : T),
      (cb, v) ∉ ((c'.unsubscribe cb).set arg).2) := by
  refine ⟨rfl, mem_addListener_self c.listeners cb, fun c' => not_mem_unsubscribe c' cb,
    fun c' => ?_, fun c' arg v hmem => ?_⟩
  · simp [StateCell.unsubscribe, List.filter_filter]
  · exact not_mem_unsubscribe c' cb (notified_mem_listeners _ arg hmem)

/-- Witness for C3 at concrete inputs: subscribing replays the current value
once; unsubscribing removes the callback; after unsubscribing, a change that
notifies other listeners does not notify the removed callback. -/
theorem subscribe_replay_unsubscribe_witness :
    (StateCell.subscribe (T := Nat) ⟨4, []⟩ 9).2 = [(9, 4)] ∧
    (9 : Nat) ∉ (StateCell.unsubscribe (T := Nat) ⟨4, [9, 2]⟩ 9).listeners ∧
    ((3 : Nat), (7 : Nat)) ∉ ((StateCell.unsubscribe (T := Nat) ⟨4, [3, 2]⟩ 3).set (.value 7)).2 := by
  exact ⟨(subscribe_replay_unsubscribe ⟨4, []⟩ 9).1,
    (subscribe_replay_unsubscribe (T := Nat) ⟨4, []⟩ 9).2.2.1 ⟨4, [9, 2]⟩,
    (subscribe_replay_unsubscribe (T := Nat) ⟨4, []⟩ 3).2.2.2.2 ⟨4, [3, 2]⟩ (.value 7) 7⟩

end Statelet

namespace Statelet

/-- C4: a `withValidation` `set` call whose candidate value the schema rejects
throws an error carrying the schema's issues — at least one, given that a
rejection reports its issues — the write never reaches the inner container
(no mutation, no notification), and `get()` afterwards returns exactly the
pre-call value. -/
theorem withValidation_rejection {T : Type} [DecidableEq T] (validate : T → StdResult T)
    (c : StateCell T) (arg : SetArg T) (issues : List Issue)
    (hrej : validate (resolveArg arg c.current) = .failure issues)
    (hne : issues ≠ []) :
    withValidationSet validate c arg =
      .error { message := "Validation failed", issues := issues } ∧
    1 ≤ issues.length ∧
    afterValidationSet validate c arg = c ∧
    (afterValidationSet validate c arg).get = c.get := by
  have herr : withValidationSet validate c arg =
      .error { message := "Validation failed", issues := issues } := by
    simp [withValidationSet, hrej]
  have hafter : afterValidationSet validate c arg = c := by
    simp [afterValidationSet, herr]
  exact ⟨herr, List.length_pos.mpr hne, hafter, by rw [hafter]⟩

/-- Witness for C4: a concrete schema rejecting everything nonzero makes the
enhanced `set` throw the validation error with its one issue, and leaves the
container exactly as before the call. -/
theorem withValidation_rejection_witness :
    withValidationSet (T := Nat)
        (fun v => if v = 0 then .success v else .failure [⟨"must be zero", ["n"]⟩])
        ⟨0, [1]⟩ (.value 5) =
      .error { message := "Validation failed", issues := [⟨"must be zero", ["n"]⟩] } ∧
    afterValidationSet (T := Nat)
        (fun v => if v = 0 then .success v else .failure [⟨"must be zero", ["n"]⟩])
        ⟨0, [1]⟩ (.value 5) = ⟨0, [1]⟩ := by
  have h := withValidation_rejection (T := Nat)
      (fun v => if v = 0 then .success v else .failure [⟨"must be zero", ["n"]⟩])
      ⟨0, [1]⟩ (.value 5) [⟨"must be zero", ["n"]⟩] (by decide) (by decide)
  exact ⟨h.1, h.2.2.1⟩

/-- Helper: in one delay window a sequence of debounced `set` calls emits no
notification, leaves the inner container untouched, and leaves exactly the
last argument pending (the previously pending one when the sequence is
empty). -/
theorem setMany_spec {T : Type} (args : List (SetArg T)) : ∀ d : DebouncedCell T,
    (d.setMany args).2 = [] ∧
    (d.setMany args).1.inner = d.inner ∧
    (d.setMany args).1.pending =
      (match args.getLast? with
       | none => d.pending
       | some a => some a) := by
  induction args with
  | nil => intro d; exact ⟨rfl, rfl, rfl⟩
  | cons arg rest ih =>
    intro d
    have h := ih ({ d with pending := some arg })
    refine ⟨?_, ?_, ?_⟩
    · simpa [DebouncedCell.setMany, DebouncedCell.set] using h.1
    · simpa [DebouncedCell.setMany, DebouncedCell.set] using h.2.1
    · cases rest with
      | nil => simp [DebouncedCell.setMany, DebouncedCell.set]
      | cons b bs =>
          simpa [DebouncedCell.setMany, DebouncedCell.set, List.getLast?_cons_cons]
            using h.2.2

/-- C5: a sequence of `set` calls on a `withDebounce`-enhanced container, all
within one delay window, emits zero notifications immediately and never
touches the inner container (`get` still returns the old value while the
write is pending); when the timer elapses, exactly one inner write happens,
with the last call's argument, and the single registered subscriber gets
exactly one notification carrying that value. -/
theorem withDebounce_coalesces {T : Type} [DecidableEq T] (d : DebouncedCell T)
    (args : List (SetArg T)) (lastArg : SetArg T) (l : Nat)
    (hlast : args.getLast? = some lastArg)
    (hl : d.inner.listeners = [l])
    (hchange : resolveArg lastArg d.inner.current ≠ d.inner.current) :
    (d.setMany args).2 = [] ∧
    (d.setMany args).1.get = d.inner.current ∧
    (d.setMany args).1.inner = d.inner ∧
    (d.setMany args).1.pending = some lastArg ∧
    (d.setMany args).1.fire =
      ({ inner := { d.inner with current := resolveArg lastArg d.inner.current },
         pending := none },
       [(l, resolveArg lastArg d.inner.current)]) := by
  obtain ⟨h1, h2, h3⟩ := setMany_spec args d
  have hp : (d.setMany args).1.pending = some lastArg := by rw [h3, hlast]
  have hd : (d.setMany args).1 = ⟨d.inner, some lastArg⟩ := by
    rcases hE : (d.setMany args).1 with ⟨i, p⟩
    rw [hE] at h2 hp
    simp only at h2 hp
    rw [h2, hp]
  refine ⟨h1, by simp [DebouncedCell.get, h2], h2, hp, ?_⟩
  rw [hd]
  simp [DebouncedCell.fire, StateCell.set, hchange, hl]

/-- Witness for C5 (the spec's concrete scenario 3, with callback ids): three
synchronous `set` calls on a debounced container with one subscriber notify
nobody immediately; when the delay elapses the subscriber gets exactly one
notification, carrying the third value. -/
theorem withDebounce_coalesces_witness :
    (DebouncedCell.setMany (T := Nat) ⟨⟨0, [7]⟩, none⟩
        [.value 1, .value 2, .value 3]).2 = [] ∧
    (DebouncedCell.setMany (T := Nat) ⟨⟨0, [7]⟩, none⟩
        [.value 1, .value 2, .value 3]).1.fire =
      (⟨⟨3, [7]⟩, none⟩, [(7, 3)]) := by
  have h := withDebounce_coalesces (T := Nat) ⟨⟨0, [7]⟩, none⟩
      [.value 1, .value 2, .value 3] (.value 3) 7 rfl rfl (by decide)
  exact ⟨h.1, by simpa using h.2.2.2.2⟩

/-- C10: a debounced `set` with an updater holds the raw updater unevaluated
(the inner container is untouched at call time); when the timer fires, the
updater is applied to the inner container's value as it is at that moment —
so it observes inner changes that happened after the `set` call. -/
theorem withDebounce_updater_deferred {T : Type} [DecidableEq T] (d : DebouncedCell T)
    (f : T → T) (c' : StateCell T)
    (hchange : f c'.current ≠ c'.current) :
    d.set (.updater f) = ({ d with pending := some (.updater f) }, []) ∧
    DebouncedCell.fire ⟨c', some (.updater f)⟩ =
      ({ inner := { c' with current := f c'.current }, pending := none },
       c'.listeners.map (fun l => (l, f c'.current))) := by
  refine ⟨rfl, ?_⟩
  simp [DebouncedCell.fire, StateCell.set, resolveArg, hchange]

/-- Witness for C10: the updater `succ` is stored raw while the inner value is
0; by the time the timer fires the inner container holds 10, and the updater
is applied to 10, storing 11 and notifying with 11. -/
theorem withDebounce_updater_deferred_witness :
    DebouncedCell.set (T := Nat) ⟨⟨0, []⟩, none⟩ (.updater Nat.succ) =
      (⟨⟨0, []⟩, some (.updater Nat.succ)⟩, []) ∧
    DebouncedCell.fire (T := Nat) ⟨⟨10, [0]⟩, some (.updater Nat.succ)⟩ =
      (⟨⟨11, [0]⟩, none⟩, [(0, 11)]) := by
  have h := withDebounce_updater_deferred (T := Nat) ⟨⟨0, []⟩, none⟩ Nat.succ
      ⟨10, [0]⟩ (by decide)
  exact ⟨h.1, by simpa using h.2⟩

/-- C6 counterexample: over `state 0`, composing `withEffect` WITHOUT the
immediate flag invokes the effect once at composition time — not zero times —
and WITH the flag invokes it twice — not exactly once: `state.subscribe`
replays the current value into the enhancer's internal callback
(`index.ts` line 103), on top of the explicit immediate invocation. -/
theorem withEffect_composition_count_counterexample :
    (withEffectCompose false (state (0 : Nat)) 5).2.calls = [(0, 0)] ∧
    (withEffectCompose true (state (0 : Nat)) 5).2.calls = [(0, 0), (0, 0)] ∧
    ¬ (withEffectCompose false (state (0 : Nat)) 5).2.calls.length = 0 ∧
    ¬ (withEffectCompose true (state (0 : Nat)) 5).2.calls.length = 1 := by
  decide

/-- C6 amended: at composition time over a base container the effect is
invoked with `(initial, initial)` exactly twice when `options.immediate` is
set and exactly once when it is not (the unconditional invocation coming from
the replay in `state.subscribe`); the internal callback is registered, the
`previous` cache ends at the initial value, and each subsequent change
invocation records `(currentValue, previousValue)` and updates the cache. -/
theorem withEffect_composition_calls {T : Type} (immediate : Bool) (c : StateCell T)
    (cbId : Nat) (v : T) :
    (withEffectCompose immediate c cbId).2.calls =
      (if immediate then [(c.current, c.current)] else []) ++ [(c.current, c.current)] ∧
    (withEffectCompose immediate c cbId).2.previous = c.current ∧
    cbId ∈ (withEffectCompose immediate c cbId).1.listeners ∧
    effectCallback (withEffectCompose immediate c cbId).2 v =
      { previous := v,
        calls := (withEffectCompose immediate c cbId).2.calls ++ [(v, c.current)] } := by
  refine ⟨?_, ?_, ?_, ?_⟩
  · cases immediate <;> simp [withEffectCompose, effectCallback, StateCell.get]
  · cases immediate <;> simp [withEffectCompose, effectCallback, StateCell.get]
  · exact mem_addListener_self c.listeners cbId
  · cases immediate <;> simp [withEffectCompose, effectCallback, StateCell.get]

/-- C7: with two subscribers registered through the `withUrlParams` /
`withHashParams` subscribe override, calling the unsubscribe returned by the
FIRST subscribe call removes both that callback and the enhancer's shared
external-change handler (popstate / hashchange) from the window, even though
the second subscriber remains registered. -/
theorem extsync_unsubscribe_removes_shared_listener {T : Type} (e : ExtSyncCell T)
    (cb1 cb2 : Nat) (hne : cb1 ≠ cb2) :
    cb1 ∉ ((((e.subscribe cb1).1.subscribe cb2).1.unsubscribe cb1).inner).listeners ∧
    e.handler ∉ (((e.subscribe cb1).1.subscribe cb2).1.unsubscribe cb1).windowListeners ∧
    cb2 ∈ ((((e.subscribe cb1).1.subscribe cb2).1.unsubscribe cb1).inner).listeners := by
  refine ⟨not_mem_unsubscribe _ cb1, ?_, ?_⟩
  · simp [ExtSyncCell.unsubscribe, ExtSyncCell.subscribe, removeEventListener,
      List.mem_filter]
  · have hmem : cb2 ∈ ((e.subscribe cb1).1.subscribe cb2).1.inner.listeners :=
      mem_addListener_self _ cb2
    simp only [ExtSyncCell.unsubscribe, StateCell.unsubscribe, List.mem_filter]
    exact ⟨hmem, by simpa using hne.symm⟩

/-- Witness for C7: on a concrete enhanced container whose shared handler 42
is registered on the window and with subscribers 1 and 2, unsubscribing
subscriber 1 removes callback 1 and handler 42 while subscriber 2 stays. -/
theorem extsync_unsubscribe_removes_shared_listener_witness :
    (1 : Nat) ∉ ((((ExtSyncCell.subscribe (T := Nat) ⟨⟨0, []⟩, [42], 42⟩ 1).1.subscribe
        2).1.unsubscribe 1).inner).listeners ∧
    (42 : Nat) ∉ (((ExtSyncCell.subscribe (T := Nat) ⟨⟨0, []⟩, [42], 42⟩ 1).1.subscribe
        2).1.unsubscribe 1).windowListeners ∧
    (2 : Nat) ∈ ((((ExtSyncCell.subscribe (T := Nat) ⟨⟨0, []⟩, [42], 42⟩ 1).1.subscribe
        2).1.unsubscribe 1).inner).listeners :=
  extsync_unsubscribe_removes_shared_listener (T := Nat) ⟨⟨0, []⟩, [42], 42⟩ 1 2
    (by decide)

/-- C8: external-sync hydration applies the decoded partial value as a shallow
merge over the inner container's current value, through the inner container's
`set` (which notifies every listener with the merged value): every decoded
field overwrites the corresponding field and every field absent from the
decoded result retains its current value; the `withStorage` hydration reaches
the same merge-set after its parse step succeeds. -/
theorem hydration_shallow_merge {K V : Type} (c : StateCell (K → V))
    (decoded : K → Option V) (s : String) (parse : String → Option (K → Option V))
    (hp : parse s = some decoded) :
    (∀ k v, decoded k = some v → (hydrate c decoded).1.current k = v) ∧
    (∀ k, decoded k = none → (hydrate c decoded).1.current k = c.current k) ∧
    (hydrate c decoded).2 = c.listeners.map (fun l => (l, shallowMerge c.current decoded)) ∧
    storageHydrate c (some s) parse = hydrate c decoded := by
  refine ⟨?_, ?_, rfl, ?_⟩
  · intro k v hk
    simp [hydrate, shallowMerge, hk]
  · intro k hk
    simp [hydrate, shallowMerge, hk]
  · simp [storageHydrate, hp]

/-- Witness for C8: hydrating a container whose every field is 1 with a
decoded partial value defining only field 0 as 9 gives a container where
field 0 reads 9 and field 3 still reads 1. -/
theorem hydration_shallow_merge_witness :
    (hydrate (K := Nat) (V := Nat) ⟨fun _ => 1, [0]⟩
        (fun k => if k = 0 then some 9 else none)).1.current 0 = 9 ∧
    (hydrate (K := Nat) (V := Nat) ⟨fun _ => 1, [0]⟩
        (fun k => if k = 0 then some 9 else none)).1.current 3 = 1 := by
  have h := hydration_shallow_merge (K := Nat) (V := Nat) ⟨fun _ => 1, [0]⟩
      (fun k => if k = 0 then some 9 else none) "r"
      (fun _ => some (fun k => if k = 0 then some 9 else none)) rfl
  exact ⟨h.1 0 9 (by decide), h.2.1 3 (by decide)⟩

/-- C9: a failure raised while persisting a change (storage quota exceeded,
serialization error) is swallowed: the enhanced `set` returns normally with
the in-memory container and the notifications exactly as the unenhanced
`set`, and the store is left unchanged; a malformed stored record makes
hydration a no-op that also returns normally — no failure reaches the caller
of `set` or the composition. -/
theorem withStorage_failure_swallowed {T K V : Type} [DecidableEq T]
    (c : StateCell T) (store : Store) (key : String) (encode : T → String)
    (arg : SetArg T) (c2 : StateCell (K → V)) (s : String)
    (parse : String → Option (K → Option V)) (hbad : parse s = none) :
    (withStorageSet c store key encode .failed arg).1.1 = (c.set arg).1 ∧
    (withStorageSet c store key encode .failed arg).2 = (c.set arg).2 ∧
    (withStorageSet c store key encode .failed arg).1.2 = store ∧
    (withStorageSet c store key encode .failed arg).1.1 =
      (withStorageSet c store key encode .ok arg).1.1 ∧
    storageHydrate c2 (some s) parse = (c2, []) := by
  refine ⟨rfl, rfl, ?_, rfl, ?_⟩
  · by_cases hch : resolveArg arg c.current ≠ c.current <;>
      simp [withStorageSet, persistListener, hch]
  · simp [storageHydrate, hbad]

/-- Witness for C9: with a failing storage write, setting 1 over 0 still
updates the in-memory container to 1 and notifies listener 3, while the
stored record keeps its old contents; hydrating from an unparseable record
leaves the container untouched. -/
theorem withStorage_failure_swallowed_witness :
    (withStorageSet (T := Nat) ⟨0, [3]⟩ [("k", "old")] "k" (fun _ => "enc")
        .failed (.value 1)).1.2 = [("k", "old")] ∧
    (withStorageSet (T := Nat) ⟨0, [3]⟩ [("k", "old")] "k" (fun _ => "enc")
        .failed (.value 1)).1.1 = ⟨1, [3]⟩ ∧
    storageHydrate (K := Nat) (V := Nat) ⟨fun _ => 5, []⟩ (some "bad")
        (fun _ => none) = (⟨fun _ => 5, []⟩, []) := by
  have h := withStorage_failure_swallowed (T := Nat) (K := Nat) (V := Nat)
      ⟨0, [3]⟩ [("k", "old")] "k" (fun _ => "enc") (.value 1) ⟨fun _ => 5, []⟩
      "bad" (fun _ => none) rfl
  refine ⟨h.2.2.1, ?_, h.2.2.2.2⟩
  rw [h.1]
  decide

end Statelet
